import Mathlib

/-!
# Verification of the `blitzadex` CDragon synchronization core

A shallow embedding of `src/cdragon.rs` (repository `cjstock/blitzadex`).

The stateful, caching `CDragon` component is modelled as pure functions over

* an explicit network environment (`NetEnv`) holding the outcome of each
  remote request the code can issue,
* an explicit I/O environment (`IoEnv`) holding the outcome of each cache
  write the code can issue,
* the in-memory aggregate state (`CState`) and the on-disk cache (`CacheFS`).

Rust `anyhow` errors are modelled as a `List String` of context frames,
outermost first (`Context::with_context` prepends a frame).  A Rust panic
(reachable through the `unwrap()` calls in `champion_ids`) is modelled as the
distinguished failure `Failure.panicked`, which no context frame can wrap.

`chrono::DateTime<Utc>` is modelled by its calendar fields (`DateTime`
below); on valid field values the lexicographic field order coincides with
the chronological order of instants, which is what `<` on
`chrono::DateTime<Utc>` computes.
-/

namespace Blitzadex

/-- Model of `chrono::DateTime<Utc>`: the UTC calendar fields of the instant.
`nano` carries the sub-second part (the textual `mtime` format drops it). -/
structure DateTime where
  year : Nat
  month : Nat
  day : Nat
  hour : Nat
  minute : Nat
  second : Nat
  nano : Nat
deriving DecidableEq, Repr

/-- Model of `<` on `chrono::DateTime<Utc>`: chronological comparison of the
instants, i.e. lexicographic comparison of the UTC calendar fields. -/
def DateTime.lt (a b : DateTime) : Bool :=
  decide (a.year < b.year) || (decide (a.year = b.year) &&
    (decide (a.month < b.month) || (decide (a.month = b.month) &&
      (decide (a.day < b.day) || (decide (a.day = b.day) &&
        (decide (a.hour < b.hour) || (decide (a.hour = b.hour) &&
          (decide (a.minute < b.minute) || (decide (a.minute = b.minute) &&
            (decide (a.second < b.second) || (decide (a.second = b.second) &&
              decide (a.nano < b.nano))))))))))))

/-- Gregorian leap-year test (as used by `chrono`'s calendar). -/
def isLeapYear (y : Nat) : Bool :=
  y % 4 == 0 && (y % 100 != 0 || y % 400 == 0)

/-- Number of days of month `m` (1..12) of year `y` in the Gregorian
calendar. -/
def daysInMonth (y m : Nat) : Nat :=
  if m = 2 then (if isLeapYear y then 29 else 28)
  else if m = 4 ∨ m = 6 ∨ m = 9 ∨ m = 11 then 30
  else 31

/-- Valid UTC calendar field values.  The year range 1..9999 is the range on
which the four-digit `%Y` directive of the `mtime` text format is faithful. -/
def DateTime.Valid (d : DateTime) : Prop :=
  1 ≤ d.year ∧ d.year ≤ 9999 ∧ 1 ≤ d.month ∧ d.month ≤ 12 ∧
  1 ≤ d.day ∧ d.day ≤ daysInMonth d.year d.month ∧
  d.hour < 24 ∧ d.minute < 60 ∧ d.second < 60

instance (d : DateTime) : Decidable d.Valid := by
  unfold DateTime.Valid; infer_instance

/-- Model of `enum Status` (`cdragon.rs` lines 19-25). -/
inductive Status where
  | uninitialized
  | outOfDate
  | upToDate
deriving DecidableEq, Repr

/-- Model of `enum PluginName` (`cdragon.rs` lines 291-344). -/
inductive PluginName where
  | none
  | rcpBeLolGameData
  | rcpBeLolLicenseAgreement
  | rcpBeSanitizer
  | rcpFeAudio
  | rcpFeCommonLibs
  | rcpFeEmberLibs
  | rcpFeLolCareerStats
  | rcpFeLolChampSelect
  | rcpFeLolChampionDetails
  | rcpFeLolChampionStatistics
  | rcpFeLolClash
  | rcpFeLolCollections
  | rcpFeLolEsportsSpectate
  | rcpFeLolEventHub
  | rcpFeLolEventShop
  | rcpFeLolHighlights
  | rcpFeLolHonor
  | rcpFeLolKickout
  | rcpFeLolL10n
  | rcpFeLolLeagues
  | rcpFeLolLockAndLoad
  | rcpFeLolLoot
  | rcpFeLolMatchHistory
  | rcpFeLolNavigation
  | rcpFeLolNewPlayerExperience
  | rcpFeLolNpeRewards
  | rcpFeLolParties
  | rcpFeLolPaw
  | rcpFeLolPft
  | rcpFeLolPostgame
  | rcpFeLolPremadeVoice
  | rcpFeLolProfiles
  | rcpFeLolSettings
  | rcpFeLolSharedComponents
  | rcpFeLolSkinsPicker
  | rcpFeLolSocial
  | rcpFeLolStartup
  | rcpFeLolStaticAssets
  | rcpFeLolStore
  | rcpFeLolTft
  | rcpFeLolTftTeamPlanner
  | rcpFeLolTftTroves
  | rcpFeLolTypekit
  | rcpFeLolUikit
  | rcpFeLolYourshop
  | rcpFePluginRunner
  | pluginManifest
deriving DecidableEq, Repr

/-- Model of `enum PluginType` (`cdragon.rs` lines 346-352). -/
inductive PluginType where
  | file
  | directory
deriving DecidableEq, Repr

/-- Model of `struct Plugin` (`cdragon.rs` lines 354-362).  `size` is
`Option<i32>` in the source; the integer is modelled as `Int`. -/
structure Plugin where
  name : PluginName
  ty : PluginType
  mtime : DateTime
  size : Option Int
deriving DecidableEq, Repr

/-- Model of `struct TactialInfo` (`cdragon.rs` lines 256-262). -/
structure TactialInfo where
  style : Nat
  difficulty : Nat
  damageType : String
deriving DecidableEq, Repr

/-- Model of `struct PlaystyleInfo` (`cdragon.rs` lines 264-272). -/
structure PlaystyleInfo where
  damage : Nat
  durability : Nat
  crowdControl : Nat
  mobility : Nat
  utility : Nat
deriving DecidableEq, Repr

/-- Model of `struct Champion` (`cdragon.rs` lines 274-289). -/
structure Champion where
  id : Nat
  name : String
  «alias» : String
  title : String
  shortBio : String
  tacticalInfo : TactialInfo
  playstyleInfo : PlaystyleInfo
  squarePortraitPath : String
  stingerSfxPath : String
  chooseVoPath : String
  banVoPath : String
  roles : List String
deriving DecidableEq, Repr

/-- Model of a decoded `serde_json::Value`.  Numbers are modelled at integer
precision, which covers every field the claims touch (`id`, `size`). -/
inductive Json where
  | null
  | bool (b : Bool)
  | num (n : Int)
  | str (s : String)
  | arr (elems : List Json)
  | obj (fields : List (String × Json))

/-- Model of `serde_json::Value::get(key)` on the claims' inputs: field lookup
in an object, `None` on any other shape. -/
def Json.get (j : Json) (key : String) : Option Json :=
  match j with
  | .obj fields => lookupField fields key
  | _ => Option.none
where
  lookupField : List (String × Json) → String → Option Json
    | [], _ => Option.none
    | (k, v) :: rest, key => if k = key then some v else lookupField rest key

/-- Model of `serde_json::Value::as_u64`: the numeric value when it is a
non-negative integer. -/
def Json.asU64 (j : Json) : Option Nat :=
  match j with
  | .num n => if 0 ≤ n then some n.toNat else Option.none
  | _ => Option.none

/-- Rust `anyhow::Error` modelled as its chain of context frames, outermost
first; the last entry is the root message. -/
abbrev ErrChain := List String

/-- Outcome of a fallible model computation: an `anyhow` error, or a Rust
panic (the `unwrap()` calls in `champion_ids` can panic). -/
inductive Failure where
  | err (chain : ErrChain)
  | panicked
deriving DecidableEq, Repr

/-- Model of `anyhow::Context::with_context`: prepend a context frame to an
error.  A panic unwinds past `with_context` unchanged. -/
def Failure.withContext (c : String) : Failure → Failure
  | .err chain => .err (c :: chain)
  | .panicked => .panicked

/-- Display string of a `PluginName` (`strum::Display` prints the variant
name). -/
def PluginName.display : PluginName → String
  | .none => "None"
  | .rcpBeLolGameData => "RcpBeLolGameData"
  | .rcpBeLolLicenseAgreement => "RcpBeLolLicenseAgreement"
  | .rcpBeSanitizer => "RcpBeSanitizer"
  | .rcpFeAudio => "RcpFeAudio"
  | .rcpFeCommonLibs => "RcpFeCommonLibs"
  | .rcpFeEmberLibs => "RcpFeEmberLibs"
  | .rcpFeLolCareerStats => "RcpFeLolCareerStats"
  | .rcpFeLolChampSelect => "RcpFeLolChampSelect"
  | .rcpFeLolChampionDetails => "RcpFeLolChampionDetails"
  | .rcpFeLolChampionStatistics => "RcpFeLolChampionStatistics"
  | .rcpFeLolClash => "RcpFeLolClash"
  | .rcpFeLolCollections => "RcpFeLolCollections"
  | .rcpFeLolEsportsSpectate => "RcpFeLolEsportsSpectate"
  | .rcpFeLolEventHub => "RcpFeLolEventHub"
  | .rcpFeLolEventShop => "RcpFeLolEventShop"
  | .rcpFeLolHighlights => "RcpFeLolHighlights"
  | .rcpFeLolHonor => "RcpFeLolHonor"
  | .rcpFeLolKickout => "RcpFeLolKickout"
  | .rcpFeLolL10n => "RcpFeLolL10n"
  | .rcpFeLolLeagues => "RcpFeLolLeagues"
  | .rcpFeLolLockAndLoad => "RcpFeLolLockAndLoad"
  | .rcpFeLolLoot => "RcpFeLolLoot"
  | .rcpFeLolMatchHistory => "RcpFeLolMatchHistory"
  | .rcpFeLolNavigation => "RcpFeLolNavigation"
  | .rcpFeLolNewPlayerExperience => "RcpFeLolNewPlayerExperience"
  | .rcpFeLolNpeRewards => "RcpFeLolNpeRewards"
  | .rcpFeLolParties => "RcpFeLolParties"
  | .rcpFeLolPaw => "RcpFeLolPaw"
  | .rcpFeLolPft => "RcpFeLolPft"
  | .rcpFeLolPostgame => "RcpFeLolPostgame"
  | .rcpFeLolPremadeVoice => "RcpFeLolPremadeVoice"
  | .rcpFeLolProfiles => "RcpFeLolProfiles"
  | .rcpFeLolSettings => "RcpFeLolSettings"
  | .rcpFeLolSharedComponents => "RcpFeLolSharedComponents"
  | .rcpFeLolSkinsPicker => "RcpFeLolSkinsPicker"
  | .rcpFeLolSocial => "RcpFeLolSocial"
  | .rcpFeLolStartup => "RcpFeLolStartup"
  | .rcpFeLolStaticAssets => "RcpFeLolStaticAssets"
  | .rcpFeLolStore => "RcpFeLolStore"
  | .rcpFeLolTft => "RcpFeLolTft"
  | .rcpFeLolTftTeamPlanner => "RcpFeLolTftTeamPlanner"
  | .rcpFeLolTftTroves => "RcpFeLolTftTroves"
  | .rcpFeLolTypekit => "RcpFeLolTypekit"
  | .rcpFeLolUikit => "RcpFeLolUikit"
  | .rcpFeLolYourshop => "RcpFeLolYourshop"
  | .rcpFePluginRunner => "RcpFePluginRunner"
  | .pluginManifest => "PluginManifest"

/-- Outcomes of the remote requests `CDragon` can issue.  `pluginsResult` is
the decoded outcome of `plugins()` (the plugin-listing request),
`summaryResult` the decoded outcome of the `champion-summary.json` request
(`Except.error` covers both transport failure and a body that is not valid
JSON), and `championResult id` the outcome of `champions/<id>.json`. -/
structure NetEnv where
  pluginsResult : Except ErrChain (List Plugin)
  summaryResult : Except ErrChain Json
  championResult : Nat → Except ErrChain Champion

/-- Outcomes of the cache writes `CDragon::save` can issue (directory
creation, serialization and `fs::write` failures collapsed into one outcome
per file). -/
structure IoEnv where
  writePluginsError : Option ErrChain
  writeChampionsError : Option ErrChain

/-- The mutable fields of `struct CDragon` (`cdragon.rs` lines 27-36): the
configuration fields fixed at construction are omitted. -/
structure CState where
  status : Status
  plugins : List Plugin
  champions : List (Nat × Champion)
deriving DecidableEq, Repr

/-- The cache directory: `dirExists` whether `<cache_dir>` exists,
`pluginsFile` the decoded content of `<cache_dir>/plugins.json` (when present
and well formed), `championsFile` that of `<cache_dir>/champion_details.json`.
-/
structure CacheFS where
  dirExists : Bool
  pluginsFile : Option (List Plugin)
  championsFile : Option (List (Nat × Champion))
deriving DecidableEq, Repr

namespace CDragon

/-- Model of `CDragon::plugins` (`cdragon.rs` lines 164-176): fetch and
decode the plugin list. -/
def plugins (net : NetEnv) : Except ErrChain (List Plugin) :=
  net.pluginsResult

/-- Model of `CDragon::save` for `plugins.json` (`cdragon.rs` lines 98-109):
create the cache directory when absent, then write the full serialized
object; on failure the cache file is unchanged. -/
def savePlugins (io : IoEnv) (fs : CacheFS) (v : List Plugin) :
    Except ErrChain CacheFS :=
  match io.writePluginsError with
  | some e => .error e
  | Option.none => .ok { fs with dirExists := true, pluginsFile := some v }

/-- Model of `CDragon::save` for `champion_details.json`
(`cdragon.rs` lines 98-109). -/
def saveChampions (io : IoEnv) (fs : CacheFS) (v : List (Nat × Champion)) :
    Except ErrChain CacheFS :=
  match io.writeChampionsError with
  | some e => .error e
  | Option.none => .ok { fs with dirExists := true, championsFile := some v }

/-- Model of `CDragon::cached_plugin_updated_date` (`cdragon.rs` lines
53-61): load `plugins.json` from the cache (`None` when the file is absent or
unreadable), find the named plugin, give its `mtime`. -/
def cached_plugin_updated_date (fs : CacheFS) (name : PluginName) :
    Option DateTime :=
  match fs.pluginsFile with
  | Option.none => Option.none
  | some plugs =>
    match plugs.find? (fun p => p.name == name) with
    | Option.none => Option.none
    | some p => some p.mtime

/-- Model of `CDragon::network_plugin_updated_date` (`cdragon.rs` lines
182-197): fetch the remote plugin list and look the named plugin up. -/
def network_plugin_updated_date (net : NetEnv) (name : PluginName) :
    Except ErrChain DateTime :=
  match plugins net with
  | .error e => .error e
  | .ok plugs =>
    match plugs.findSome?
        (fun p => if p.name == name then some p.mtime else Option.none) with
    | some t => .ok t
    | Option.none =>
      .error ["couldn't find the when " ++ name.display ++ " was last updated"]

/-- The error built by the `map_err` in `CDragon::status`
(`cdragon.rs` lines 71-73): a fresh `anyhow!` message displaying the
underlying error's outermost frame. -/
def statusFetchError (name : PluginName) (e : ErrChain) : ErrChain :=
  ["failed to check when " ++ name.display ++ " was last updated: "
    ++ e.headD ""]

/-- Model of `CDragon::status` (`cdragon.rs` lines 63-81): no cached
timestamp means `OutOfDate`; otherwise compare the cached timestamp with the
freshly fetched remote one. -/
def status (net : NetEnv) (fs : CacheFS) (plugin_name : PluginName) :
    Except ErrChain Status :=
  match cached_plugin_updated_date fs plugin_name with
  | Option.none => .ok Status.outOfDate
  | some cached_date =>
    match network_plugin_updated_date net plugin_name with
    | .error e => .error (statusFetchError plugin_name e)
    | .ok fetched =>
      if cached_date.lt fetched then .ok Status.outOfDate
      else .ok Status.upToDate

/-- The `id` extraction applied to one retained summary element
(`cdragon.rs` line 211): `v.get("id").unwrap().as_u64().unwrap()`, where each
`unwrap` panics on `None`. -/
def summaryId (v : Json) : Option Nat :=
  (v.get "id").bind Json.asU64

/-- The `skip(1).map(...).collect()` pipeline of `CDragon::champion_ids`
applied to the retained elements: the first element whose `id` extraction
fails makes the whole call panic. -/
def extractIds : List Json → Except Failure (List Nat)
  | [] => .ok []
  | v :: vs =>
    match summaryId v with
    | Option.none => .error Failure.panicked
    | some id => (extractIds vs).map (fun ids => id :: ids)

/-- Model of `CDragon::champion_ids` (`cdragon.rs` lines 199-214): fetch the
summary, decode it as a JSON array (a non-array body is a decode error from
`serde_json::from_str`), drop the first element, extract each remaining `id`.
-/
def champion_ids (net : NetEnv) : Except Failure (List Nat) :=
  match net.summaryResult with
  | .error e => .error (.err e)
  | .ok j =>
    match j with
    | .arr elems => extractIds (elems.drop 1)
    | _ => .error (.err ["invalid type: expected a sequence"])

/-- The champion map (`HashMap<u64, Champion>`) as an association list with
key-replacing insert. -/
abbrev ChampMap := List (Nat × Champion)

/-- Keys of the champion map. -/
def mapKeys (m : ChampMap) : List Nat := m.map Prod.fst

/-- Model of `HashMap::insert`: replace the entry at an existing key,
otherwise add a new entry. -/
def mapInsert (m : ChampMap) (k : Nat) (v : Champion) : ChampMap :=
  if m.any (fun p => p.1 == k) then
    m.map (fun p => if p.1 == k then (k, v) else p)
  else (k, v) :: m

/-- The join loop of `CDragon::all_champions` (`cdragon.rs` lines 247-251):
await each spawned fetch in spawn order; the first failed fetch fails the
whole call; a successful champion is inserted under its own `id` field. -/
def joinChampionTasks (net : NetEnv) : List Nat → ChampMap →
    Except Failure ChampMap
  | [], acc => .ok acc
  | id :: rest, acc =>
    match net.championResult id with
    | .error e => .error (.err e)
    | .ok c => joinChampionTasks net rest (mapInsert acc c.id c)

/-- Model of `CDragon::all_champions` (`cdragon.rs` lines 239-253): get the
id list, spawn one fetch per id, join them all into the id-keyed map. -/
def all_champions (net : NetEnv) : Except Failure ChampMap :=
  match champion_ids net with
  | .error f => .error f
  | .ok ids => joinChampionTasks net ids []

/-- Model of `CDragon::update` (`cdragon.rs` lines 142-161).  The Rust method
mutates `self` and returns `anyhow::Result<()>`; the model returns the
outcome together with the state and cache after the call.  Stage order as in
the source: fetch plugins, cache them, commit them in memory, fetch all
champions, cache them, commit them, set the status. -/
def update (net : NetEnv) (io : IoEnv) (st : CState) (fs : CacheFS) :
    Except Failure Unit × CState × CacheFS :=
  match plugins net with
  | .error e => (.error (.err ("failed to update plugins" :: e)), st, fs)
  | .ok plugs =>
    match savePlugins io fs plugs with
    | .error e =>
      (.error (.err ("failed to cache the updated plugins" :: e)), st, fs)
    | .ok fs1 =>
      let st1 := { st with plugins := plugs }
      match all_champions net with
      | .error f =>
        (.error (f.withContext "failed to update champions"), st1, fs1)
      | .ok champs =>
        match saveChampions io fs1 champs with
        | .error e =>
          (.error (.err ("failed to cache the updated champions" :: e)),
            st1, fs1)
        | .ok fs2 =>
          (.ok (), { st1 with champions := champs, status := Status.upToDate },
            fs2)

end CDragon

/-! ## Serde encoding of `Plugin`

`Plugin` derives `Serialize`/`Deserialize` with `rename_all = "kebab-case"`
on `PluginName` (with `#[serde(other)]` on `PluginManifest`), `rename`s on
`PluginType`, and the custom `mtime_format` module for `mtime`. -/

/-- Serde tag of a `PluginName` (`rename_all = "kebab-case"`). -/
def PluginName.serName : PluginName → String
  | .none => "none"
  | .rcpBeLolGameData => "rcp-be-lol-game-data"
  | .rcpBeLolLicenseAgreement => "rcp-be-lol-license-agreement"
  | .rcpBeSanitizer => "rcp-be-sanitizer"
  | .rcpFeAudio => "rcp-fe-audio"
  | .rcpFeCommonLibs => "rcp-fe-common-libs"
  | .rcpFeEmberLibs => "rcp-fe-ember-libs"
  | .rcpFeLolCareerStats => "rcp-fe-lol-career-stats"
  | .rcpFeLolChampSelect => "rcp-fe-lol-champ-select"
  | .rcpFeLolChampionDetails => "rcp-fe-lol-champion-details"
  | .rcpFeLolChampionStatistics => "rcp-fe-lol-champion-statistics"
  | .rcpFeLolClash => "rcp-fe-lol-clash"
  | .rcpFeLolCollections => "rcp-fe-lol-collections"
  | .rcpFeLolEsportsSpectate => "rcp-fe-lol-esports-spectate"
  | .rcpFeLolEventHub => "rcp-fe-lol-event-hub"
  | .rcpFeLolEventShop => "rcp-fe-lol-event-shop"
  | .rcpFeLolHighlights => "rcp-fe-lol-highlights"
  | .rcpFeLolHonor => "rcp-fe-lol-honor"
  | .rcpFeLolKickout => "rcp-fe-lol-kickout"
  | .rcpFeLolL10n => "rcp-fe-lol-l10n"
  | .rcpFeLolLeagues => "rcp-fe-lol-leagues"
  | .rcpFeLolLockAndLoad => "rcp-fe-lol-lock-and-load"
  | .rcpFeLolLoot => "rcp-fe-lol-loot"
  | .rcpFeLolMatchHistory => "rcp-fe-lol-match-history"
  | .rcpFeLolNavigation => "rcp-fe-lol-navigation"
  | .rcpFeLolNewPlayerExperience => "rcp-fe-lol-new-player-experience"
  | .rcpFeLolNpeRewards => "rcp-fe-lol-npe-rewards"
  | .rcpFeLolParties => "rcp-fe-lol-parties"
  | .rcpFeLolPaw => "rcp-fe-lol-paw"
  | .rcpFeLolPft => "rcp-fe-lol-pft"
  | .rcpFeLolPostgame => "rcp-fe-lol-postgame"
  | .rcpFeLolPremadeVoice => "rcp-fe-lol-premade-voice"
  | .rcpFeLolProfiles => "rcp-fe-lol-profiles"
  | .rcpFeLolSettings => "rcp-fe-lol-settings"
  | .rcpFeLolSharedComponents => "rcp-fe-lol-shared-components"
  | .rcpFeLolSkinsPicker => "rcp-fe-lol-skins-picker"
  | .rcpFeLolSocial => "rcp-fe-lol-social"
  | .rcpFeLolStartup => "rcp-fe-lol-startup"
  | .rcpFeLolStaticAssets => "rcp-fe-lol-static-assets"
  | .rcpFeLolStore => "rcp-fe-lol-store"
  | .rcpFeLolTft => "rcp-fe-lol-tft"
  | .rcpFeLolTftTeamPlanner => "rcp-fe-lol-tft-team-planner"
  | .rcpFeLolTftTroves => "rcp-fe-lol-tft-troves"
  | .rcpFeLolTypekit => "rcp-fe-lol-typekit"
  | .rcpFeLolUikit => "rcp-fe-lol-uikit"
  | .rcpFeLolYourshop => "rcp-fe-lol-yourshop"
  | .rcpFePluginRunner => "rcp-fe-plugin-runner"
  | .pluginManifest => "plugin-manifest"

/-- Serde decoding of a `PluginName` tag: any tag that is none of the named
variants falls back to `PluginManifest` (`#[serde(other)]`). -/
def PluginName.deserName (s : String) : PluginName :=
  if s = "none" then .none
  else if s = "rcp-be-lol-game-data" then .rcpBeLolGameData
  else if s = "rcp-be-lol-license-agreement" then .rcpBeLolLicenseAgreement
  else if s = "rcp-be-sanitizer" then .rcpBeSanitizer
  else if s = "rcp-fe-audio" then .rcpFeAudio
  else if s = "rcp-fe-common-libs" then .rcpFeCommonLibs
  else if s = "rcp-fe-ember-libs" then .rcpFeEmberLibs
  else if s = "rcp-fe-lol-career-stats" then .rcpFeLolCareerStats
  else if s = "rcp-fe-lol-champ-select" then .rcpFeLolChampSelect
  else if s = "rcp-fe-lol-champion-details" then .rcpFeLolChampionDetails
  else if s = "rcp-fe-lol-champion-statistics" then .rcpFeLolChampionStatistics
  else if s = "rcp-fe-lol-clash" then .rcpFeLolClash
  else if s = "rcp-fe-lol-collections" then .rcpFeLolCollections
  else if s = "rcp-fe-lol-esports-spectate" then .rcpFeLolEsportsSpectate
  else if s = "rcp-fe-lol-event-hub" then .rcpFeLolEventHub
  else if s = "rcp-fe-lol-event-shop" then .rcpFeLolEventShop
  else if s = "rcp-fe-lol-highlights" then .rcpFeLolHighlights
  else if s = "rcp-fe-lol-honor" then .rcpFeLolHonor
  else if s = "rcp-fe-lol-kickout" then .rcpFeLolKickout
  else if s = "rcp-fe-lol-l10n" then .rcpFeLolL10n
  else if s = "rcp-fe-lol-leagues" then .rcpFeLolLeagues
  else if s = "rcp-fe-lol-lock-and-load" then .rcpFeLolLockAndLoad
  else if s = "rcp-fe-lol-loot" then .rcpFeLolLoot
  else if s = "rcp-fe-lol-match-history" then .rcpFeLolMatchHistory
  else if s = "rcp-fe-lol-navigation" then .rcpFeLolNavigation
  else if s = "rcp-fe-lol-new-player-experience" then .rcpFeLolNewPlayerExperience
  else if s = "rcp-fe-lol-npe-rewards" then .rcpFeLolNpeRewards
  else if s = "rcp-fe-lol-parties" then .rcpFeLolParties
  else if s = "rcp-fe-lol-paw" then .rcpFeLolPaw
  else if s = "rcp-fe-lol-pft" then .rcpFeLolPft
  else if s = "rcp-fe-lol-postgame" then .rcpFeLolPostgame
  else if s = "rcp-fe-lol-premade-voice" then .rcpFeLolPremadeVoice
  else if s = "rcp-fe-lol-profiles" then .rcpFeLolProfiles
  else if s = "rcp-fe-lol-settings" then .rcpFeLolSettings
  else if s = "rcp-fe-lol-shared-components" then .rcpFeLolSharedComponents
  else if s = "rcp-fe-lol-skins-picker" then .rcpFeLolSkinsPicker
  else if s = "rcp-fe-lol-social" then .rcpFeLolSocial
  else if s = "rcp-fe-lol-startup" then .rcpFeLolStartup
  else if s = "rcp-fe-lol-static-assets" then .rcpFeLolStaticAssets
  else if s = "rcp-fe-lol-store" then .rcpFeLolStore
  else if s = "rcp-fe-lol-tft" then .rcpFeLolTft
  else if s = "rcp-fe-lol-tft-team-planner" then .rcpFeLolTftTeamPlanner
  else if s = "rcp-fe-lol-tft-troves" then .rcpFeLolTftTroves
  else if s = "rcp-fe-lol-typekit" then .rcpFeLolTypekit
  else if s = "rcp-fe-lol-uikit" then .rcpFeLolUikit
  else if s = "rcp-fe-lol-yourshop" then .rcpFeLolYourshop
  else if s = "rcp-fe-plugin-runner" then .rcpFePluginRunner
  else .pluginManifest

/-! ## The `mtime_format` module

`mtime_format` (`cdragon.rs` lines 370-392) serializes a
`DateTime<Utc>` with the `chrono` format string
`"%a, %d %b %Y %H:%M:%S %Z"` and deserializes by parsing a
`NaiveDateTime` with the same format string and reinterpreting the parsed
wall-clock fields as UTC (`DateTime::from_naive_utc_and_offset(dt, Utc)`).

The model works on `List Char`.  Formatting follows `chrono`: `%a`/`%b`
print the capitalized three-letter English names, `%d`/`%H`/`%M`/`%S` are
zero-padded to two digits, `%Y` to four digits (faithful for years
1..9999), and `%Z` prints `UTC` for `DateTime<Utc>`.

Parsing follows `chrono`'s parser on such inputs: a name directive matches
the three-letter name case-insensitively, a space in the format string
skips any run (possibly empty) of whitespace, a literal matches itself, a
numeric directive reads a bounded greedy run of digits, `%Z` skips a run of
non-whitespace characters without interpreting it, and the parsed weekday
must agree with the parsed date.  (`chrono` additionally accepts full
month/weekday names and years outside 1..9999; those inputs are outside
this model.) -/

/-- Character of a decimal digit value. -/
def digitChar (n : Nat) : Char := Char.ofNat (48 + n)

/-- Decimal value of a digit character. -/
def digitVal (c : Char) : Nat := c.toNat - 48

/-- Two-digit zero-padded decimal (`%d`, `%H`, `%M`, `%S`). -/
def pad2 (n : Nat) : List Char := [digitChar (n / 10), digitChar (n % 10)]

/-- Four-digit zero-padded decimal (`%Y` on years 1..9999). -/
def pad4 (n : Nat) : List Char :=
  [digitChar (n / 1000), digitChar (n / 100 % 10),
   digitChar (n / 10 % 10), digitChar (n % 10)]

/-- Sakamoto's weekday algorithm: day of week of a Gregorian date,
`0` = Sunday .. `6` = Saturday (the weekday `chrono` computes and prints).
-/
def weekdayOf (y m d : Nat) : Nat :=
  let t := [0, 3, 2, 5, 0, 3, 5, 1, 4, 6, 2, 4]
  let y' := if m < 3 then y - 1 else y
  (y' + y' / 4 - y' / 100 + y' / 400 + t.getD (m - 1) 0 + d) % 7

/-- Capitalized three-letter weekday name printed by `%a`. -/
def weekdayAbbrev : Nat → List Char
  | 0 => ['S', 'u', 'n']
  | 1 => ['M', 'o', 'n']
  | 2 => ['T', 'u', 'e']
  | 3 => ['W', 'e', 'd']
  | 4 => ['T', 'h', 'u']
  | 5 => ['F', 'r', 'i']
  | _ => ['S', 'a', 't']

/-- Capitalized three-letter month name printed by `%b` (months 1..12). -/
def monthAbbrev : Nat → List Char
  | 1 => ['J', 'a', 'n']
  | 2 => ['F', 'e', 'b']
  | 3 => ['M', 'a', 'r']
  | 4 => ['A', 'p', 'r']
  | 5 => ['M', 'a', 'y']
  | 6 => ['J', 'u', 'n']
  | 7 => ['J', 'u', 'l']
  | 8 => ['A', 'u', 'g']
  | 9 => ['S', 'e', 'p']
  | 10 => ['O', 'c', 't']
  | 11 => ['N', 'o', 'v']
  | _ => ['D', 'e', 'c']

/-- Model of `mtime_format::serialize` (`cdragon.rs` lines 376-382): the
text `date.format("%a, %d %b %Y %H:%M:%S %Z")` produces. -/
def mtimeSerialize (d : DateTime) : List Char :=
  weekdayAbbrev (weekdayOf d.year d.month d.day) ++ ',' :: ' ' ::
  (pad2 d.day ++ ' ' ::
  (monthAbbrev d.month ++ ' ' ::
  (pad4 d.year ++ ' ' ::
  (pad2 d.hour ++ ':' ::
  (pad2 d.minute ++ ':' ::
  (pad2 d.second ++ [' ', 'U', 'T', 'C']))))))

/-- String form of `mtime_format::serialize`. -/
def mtimeSerializeStr (d : DateTime) : String := String.mk (mtimeSerialize d)

/-- Lowercased three-letter name lookup used by the `%a`/`%b` directives. -/
def nameLookup : List (List Char × Nat) → List Char → Option Nat
  | [], _ => Option.none
  | (pat, v) :: rest, key => if pat = key then some v else nameLookup rest key

/-- Match a three-letter name directive (`%a`/`%b`): take three characters,
look their lowercased form up in the table. -/
def parseName3 (table : List (List Char × Nat)) : List Char →
    Option (Nat × List Char)
  | a :: b :: c :: rest =>
    match nameLookup table [a.toLower, b.toLower, c.toLower] with
    | some v => some (v, rest)
    | Option.none => Option.none
  | _ => Option.none

/-- Weekday names for `%a`, values `0` = Sunday .. `6` = Saturday. -/
def weekdayTable : List (List Char × Nat) :=
  [(['s', 'u', 'n'], 0), (['m', 'o', 'n'], 1), (['t', 'u', 'e'], 2),
   (['w', 'e', 'd'], 3), (['t', 'h', 'u'], 4), (['f', 'r', 'i'], 5),
   (['s', 'a', 't'], 6)]

/-- Month names for `%b`, values 1..12. -/
def monthTable : List (List Char × Nat) :=
  [(['j', 'a', 'n'], 1), (['f', 'e', 'b'], 2), (['m', 'a', 'r'], 3),
   (['a', 'p', 'r'], 4), (['m', 'a', 'y'], 5), (['j', 'u', 'n'], 6),
   (['j', 'u', 'l'], 7), (['a', 'u', 'g'], 8), (['s', 'e', 'p'], 9),
   (['o', 'c', 't'], 10), (['n', 'o', 'v'], 11), (['d', 'e', 'c'], 12)]

/-- Take up to `cap` leading decimal digits. -/
def takeDigits : Nat → List Char → List Char × List Char
  | 0, cs => ([], cs)
  | _ + 1, [] => ([], [])
  | cap + 1, c :: cs =>
    if c.isDigit then
      let (ds, rest) := takeDigits cap cs
      (c :: ds, rest)
    else ([], c :: cs)

/-- Value of a digit run, most significant first. -/
def natOfDigits (ds : List Char) : Nat :=
  ds.foldl (fun acc c => acc * 10 + digitVal c) 0

/-- Numeric directive: a greedy run of one to `cap` digits. -/
def parseNatUpTo (cap : Nat) (cs : List Char) : Option (Nat × List Char) :=
  match takeDigits cap cs with
  | ([], _) => Option.none
  | (ds, rest) => some (natOfDigits ds, rest)

/-- Literal directive: match one exact character. -/
def expectChar (c : Char) : List Char → Option (List Char)
  | x :: rest => if x = c then some rest else Option.none
  | [] => Option.none

/-- Space in the format string: skip a (possibly empty) whitespace run. -/
def skipWS (cs : List Char) : List Char := cs.dropWhile Char.isWhitespace

/-- Validity of a parsed Gregorian date with the year range of the
four-digit `%Y` directive, as checked by `Parsed::to_naive_date`. -/
def isValidDate (y m d : Nat) : Bool :=
  decide (1 ≤ y) && decide (y ≤ 9999) && decide (1 ≤ m) && decide (m ≤ 12) &&
  decide (1 ≤ d) && decide (d ≤ daysInMonth y m)

/-- Parse the field directives `"%a, %d %b %Y %H:%M:%S"` and return the
fields (sub-second part zero) together with the unconsumed input.  The
parsed weekday must be the weekday of the parsed date and every field must
be in range, as `chrono`'s `Parsed` checks when building the
`NaiveDateTime`. -/
def parseMtimeFields (cs : List Char) : Option (DateTime × List Char) :=
  match parseName3 weekdayTable cs with
  | Option.none => Option.none
  | some (wd, cs1) =>
  match expectChar ',' cs1 with
  | Option.none => Option.none
  | some cs2 =>
  match parseNatUpTo 2 (skipWS cs2) with
  | Option.none => Option.none
  | some (day, cs3) =>
  match parseName3 monthTable (skipWS cs3) with
  | Option.none => Option.none
  | some (mon, cs4) =>
  match parseNatUpTo 4 (skipWS cs4) with
  | Option.none => Option.none
  | some (year, cs5) =>
  match parseNatUpTo 2 (skipWS cs5) with
  | Option.none => Option.none
  | some (hour, cs6) =>
  match expectChar ':' cs6 with
  | Option.none => Option.none
  | some cs7 =>
  match parseNatUpTo 2 cs7 with
  | Option.none => Option.none
  | some (minute, cs8) =>
  match expectChar ':' cs8 with
  | Option.none => Option.none
  | some cs9 =>
  match parseNatUpTo 2 cs9 with
  | Option.none => Option.none
  | some (second, cs10) =>
  if isValidDate year mon day && (weekdayOf year mon day == wd) &&
      decide (hour < 24) && decide (minute < 60) && decide (second < 60) then
    some (⟨year, mon, day, hour, minute, second, 0⟩, cs10)
  else Option.none

/-- Model of `mtime_format::deserialize` on the character list of the input
string: parse the fields, then `" %Z"` skips whitespace followed by an
uninterpreted run of non-whitespace characters (the zone designator), and
the whole input must be consumed; the resulting fields are returned as a
UTC instant unchanged (`from_naive_utc_and_offset(dt, Utc)`). -/
def parseMtime (cs : List Char) : Option DateTime :=
  match parseMtimeFields cs with
  | Option.none => Option.none
  | some (d, rest) =>
    if (skipWS rest).dropWhile (fun c => !c.isWhitespace) = [] then some d
    else Option.none

/-- String form of `mtime_format::deserialize`. -/
def mtimeDeserializeStr (s : String) : Option DateTime := parseMtime s.data

/-- Serde tag of a `PluginType` (`rename = "file"` / `"directory"`). -/
def PluginType.serName : PluginType → String
  | .file => "file"
  | .directory => "directory"

/-- Serde decoding of a `PluginType` tag; an unknown tag is a decode error.
-/
def PluginType.deserName (s : String) : Option PluginType :=
  if s = "file" then some .file
  else if s = "directory" then some .directory
  else Option.none

/-- Serialization of a `Plugin` to a JSON value: `name` and `type` as their
serde tags, `mtime` through `mtime_format::serialize`, `size` as a number or
`null`. -/
def Plugin.toJson (p : Plugin) : Json :=
  Json.obj
    [("name", Json.str p.name.serName),
     ("type", Json.str p.ty.serName),
     ("mtime", Json.str (mtimeSerializeStr p.mtime)),
     ("size", match p.size with
              | some n => Json.num n
              | Option.none => Json.null)]

/-- Deserialization of a `Plugin` from a JSON value: fields are looked up by
name, `mtime` goes through `mtime_format::deserialize`, a missing or `null`
`size` is `None` (serde treats `Option` fields as implicitly optional), and
any shape mismatch is a decode error. -/
def Plugin.fromJson (j : Json) : Option Plugin :=
  match j with
  | Json.obj fields =>
    match Json.get.lookupField fields "name" with
    | some (Json.str nameTag) =>
      match Json.get.lookupField fields "type" with
      | some (Json.str tyTag) =>
        match PluginType.deserName tyTag with
        | some ty =>
          match Json.get.lookupField fields "mtime" with
          | some (Json.str mtimeText) =>
            match mtimeDeserializeStr mtimeText with
            | some mtime =>
              match Json.get.lookupField fields "size" with
              | some (Json.num n) =>
                some ⟨PluginName.deserName nameTag, ty, mtime, some n⟩
              | some Json.null =>
                some ⟨PluginName.deserName nameTag, ty, mtime, Option.none⟩
              | Option.none =>
                some ⟨PluginName.deserName nameTag, ty, mtime, Option.none⟩
              | some _ => Option.none
            | Option.none => Option.none
          | _ => Option.none
        | Option.none => Option.none
      | _ => Option.none
    | _ => Option.none
  | _ => Option.none

/-! ## Concrete fixtures

Closed environments, states and payloads used by the counterexample and the
witness theorems. -/

/-- A cached timestamp (2023-01-01 00:00:00). -/
def t2023W : DateTime := ⟨2023, 1, 1, 0, 0, 0, 0⟩

/-- A remote timestamp (2024-06-01 12:30:45). -/
def t2024W : DateTime := ⟨2024, 6, 1, 12, 30, 45, 0⟩

/-- The remote game-data plugin record. -/
def plugRemoteW : Plugin :=
  ⟨PluginName.rcpBeLolGameData, PluginType.directory, t2024W, some 4096⟩

/-- The cached game-data plugin record (older `mtime`). -/
def plugCachedW : Plugin :=
  ⟨PluginName.rcpBeLolGameData, PluginType.directory, t2023W, some 4096⟩

/-- A champion record with id 1. -/
def champ1W : Champion :=
  ⟨1, "Annie", "Annie", "the Dark Child", "bio",
   ⟨1, 2, "kMagic"⟩, ⟨3, 1, 1, 1, 1⟩, "p1", "s1", "c1", "b1", ["mage"]⟩

/-- A champion record with id 2. -/
def champ2W : Champion :=
  ⟨2, "Olaf", "Olaf", "the Berserker", "bio2",
   ⟨2, 1, "kPhysical"⟩, ⟨2, 3, 1, 2, 1⟩, "p2", "s2", "c2", "b2", ["fighter"]⟩

/-- A champion summary: a sentinel element followed by ids 1 and 2. -/
def summaryW : Json :=
  Json.arr
    [Json.obj [("id", Json.num (-1)), ("name", Json.str "None")],
     Json.obj [("id", Json.num 1)],
     Json.obj [("id", Json.num 2)]]

/-- A champion summary whose second retained element has no numeric `id`. -/
def summaryBadW : Json :=
  Json.arr
    [Json.obj [("id", Json.num (-1))],
     Json.obj [("id", Json.num 1)],
     Json.obj [("name", Json.str "Annie")]]

/-- Network environment: every remote request fails. -/
def netDownW : NetEnv :=
  ⟨.error ["connection refused"], .error ["connection refused"],
   fun _ => .error ["connection refused"]⟩

/-- Network environment for the freshness check: the remote list holds the
newer game-data plugin; the other endpoints are unused. -/
def netFreshW : NetEnv :=
  ⟨.ok [plugRemoteW], .error ["unused"], fun _ => .error ["unused"]⟩

/-- Network environment where every request succeeds (summary ids 1 and 2).
-/
def netOkW : NetEnv :=
  ⟨.ok [plugRemoteW], .ok summaryW,
   fun id => if id = 1 then .ok champ1W
             else if id = 2 then .ok champ2W
             else .error ["404"]⟩

/-- Network environment where the champion fetch of id 2 fails. -/
def netChamp2FailW : NetEnv :=
  ⟨.ok [plugRemoteW], .ok summaryW,
   fun id => if id = 1 then .ok champ1W else .error ["404 not found"]⟩

/-- Network environment where the summary request fails after a successful
plugin listing. -/
def netSummaryFailW : NetEnv :=
  ⟨.ok [plugRemoteW], .error ["connection reset"], fun _ => .error ["unused"]⟩

/-- Network environment whose summary has an element without a numeric
`id`. -/
def netBadSummaryW : NetEnv :=
  ⟨.ok [plugRemoteW], .ok summaryBadW, fun _ => .error ["unused"]⟩

/-- I/O environment: every cache write succeeds. -/
def ioOkW : IoEnv := ⟨Option.none, Option.none⟩

/-- Freshly constructed in-memory state (`CDragon::new`). -/
def stInitW : CState := ⟨Status.uninitialized, [], []⟩

/-- A cache directory that does not exist yet. -/
def fsInitW : CacheFS := ⟨false, Option.none, Option.none⟩

/-- A cache holding the older game-data plugin record. -/
def fsCachedW : CacheFS := ⟨true, some [plugCachedW], Option.none⟩

/-! ## Theorems -/

/-- C2.  With a cached timestamp `t1` and a successfully fetched and located
remote timestamp `t2`, `CDragon::status` returns `OutOfDate` exactly when
`t1 < t2`, and `UpToDate` otherwise (in particular when `t1 = t2`). -/
theorem status_out_of_date_iff_cached_older (net : NetEnv) (fs : CacheFS)
    (name : PluginName) (t1 t2 : DateTime)
    (hc : CDragon.cached_plugin_updated_date fs name = some t1)
    (hr : CDragon.network_plugin_updated_date net name = Except.ok t2) :
    (CDragon.status net fs name = Except.ok Status.outOfDate ↔
      t1.lt t2 = true) ∧
    (CDragon.status net fs name = Except.ok Status.upToDate ↔
      t1.lt t2 = false) := by
  unfold CDragon.status
  rw [hc, hr]
  by_cases h : t1.lt t2 = true
  · simp [h]
  · simp only [Bool.not_eq_true] at h
    simp [h]

/-- Witness for C2: the 2023 cached timestamp against the 2024 remote one
yields `OutOfDate`. -/
theorem status_out_of_date_iff_cached_older_witness :
    CDragon.status netFreshW fsCachedW PluginName.rcpBeLolGameData =
      Except.ok Status.outOfDate :=
  (status_out_of_date_iff_cached_older netFreshW fsCachedW
      PluginName.rcpBeLolGameData t2023W t2024W rfl rfl).1.mpr (by decide)

/-- C7.  When no cached plugin list exists, or the named plugin is absent
from the cached list, `CDragon::status` returns `OutOfDate` whatever the
network environment does. -/
theorem status_cold_start (net : NetEnv) (fs : CacheFS) (name : PluginName)
    (h : fs.pluginsFile = Option.none ∨
      ∃ l, fs.pluginsFile = some l ∧ ∀ p ∈ l, p.name ≠ name) :
    CDragon.status net fs name = Except.ok Status.outOfDate := by
  have hc : CDragon.cached_plugin_updated_date fs name = Option.none := by
    unfold CDragon.cached_plugin_updated_date
    rcases h with h | ⟨l, hl, habsent⟩
    · rw [h]
    · rw [hl]
      have hfind : l.find? (fun p => p.name == name) = Option.none := by
        rw [List.find?_eq_none]
        intro p hp
        simp [habsent p hp]
      simp [hfind]
  unfold CDragon.status
  rw [hc]

/-- Witness for C7: on an absent cache file the status is `OutOfDate` even
though every remote request fails. -/
theorem status_cold_start_witness :
    CDragon.status netDownW fsInitW PluginName.rcpBeLolGameData =
      Except.ok Status.outOfDate :=
  status_cold_start netDownW fsInitW PluginName.rcpBeLolGameData
    (Or.inl rfl)

/-- C5 (code bug).  On a summary whose retained element lacks a numeric
`id`, `CDragon::champion_ids` panics (the `unwrap()` calls at line 211)
instead of failing with a decode error, which is what the spec requires. -/
theorem champion_ids_panics_on_missing_id :
    CDragon.champion_ids netBadSummaryW = Except.error Failure.panicked ∧
    ∀ e, CDragon.champion_ids netBadSummaryW ≠
      Except.error (Failure.err e) := by
  refine ⟨rfl, fun e h => ?_⟩
  rw [show CDragon.champion_ids netBadSummaryW =
        Except.error Failure.panicked from rfl] at h
  simp at h

/-- The extraction pipeline of `champion_ids` on elements that all carry a
numeric `id`: it succeeds with exactly those ids, in order. -/
theorem extractIds_all_some (l : List Json)
    (h : ∀ v ∈ l, (CDragon.summaryId v).isSome) :
    CDragon.extractIds l = Except.ok (l.filterMap CDragon.summaryId) := by
  induction l with
  | nil => rfl
  | cons v vs ih =>
    obtain ⟨id, hid⟩ :=
      Option.isSome_iff_exists.mp (h v (List.mem_cons_self v vs))
    have hvs := ih (fun w hw => h w (List.mem_cons_of_mem v hw))
    simp [CDragon.extractIds, hid, hvs, List.filterMap_cons, Except.map]

/-- C6.  `CDragon::champion_ids` drops exactly the first element of the
decoded summary array, whatever that element holds, and returns the `id` of
every subsequent element in order. -/
theorem champion_ids_skips_first (net : NetEnv) (first : Json)
    (rest : List Json)
    (hres : net.summaryResult = Except.ok (Json.arr (first :: rest)))
    (hall : ∀ v ∈ rest, (CDragon.summaryId v).isSome) :
    CDragon.champion_ids net =
      Except.ok (rest.filterMap CDragon.summaryId) := by
  unfold CDragon.champion_ids
  rw [hres]
  simpa using extractIds_all_some rest hall

/-- Witness for C6: the fixture summary (sentinel, then ids 1 and 2) yields
`[1, 2]`. -/
theorem champion_ids_skips_first_witness :
    CDragon.champion_ids netOkW = Except.ok [1, 2] :=
  champion_ids_skips_first netOkW
    (Json.obj [("id", Json.num (-1)), ("name", Json.str "None")])
    [Json.obj [("id", Json.num 1)], Json.obj [("id", Json.num 2)]]
    rfl (by decide)

/-- The join loop fails whenever the fetch of some listed id fails,
whatever has been accumulated so far. -/
theorem joinChampionTasks_error_of_mem (net : NetEnv) :
    ∀ (ids : List Nat) (acc : CDragon.ChampMap),
      (∃ id ∈ ids, ∃ e, net.championResult id = Except.error e) →
      ∃ f, CDragon.joinChampionTasks net ids acc = Except.error f := by
  intro ids
  induction ids with
  | nil =>
    rintro acc ⟨id, hmem, -⟩
    exact absurd hmem (List.not_mem_nil id)
  | cons id0 rest ih =>
    rintro acc ⟨id, hmem, e, he⟩
    cases hres : net.championResult id0 with
    | error e0 =>
      exact ⟨.err e0, by simp [CDragon.joinChampionTasks, hres]⟩
    | ok c =>
      rcases List.mem_cons.mp hmem with rfl | hrest
      · rw [hres] at he; cases he
      · obtain ⟨f, hf⟩ :=
          ih (CDragon.mapInsert acc c.id c) ⟨id, hrest, e, he⟩
        exact ⟨f, by simp [CDragon.joinChampionTasks, hres, hf]⟩

/-- C3.  When the id list is obtained and the fetch of at least one listed
id fails, `CDragon::all_champions` fails as a whole: it returns an error and
never a map of the entities that did succeed. -/
theorem all_champions_fails_whole (net : NetEnv) (ids : List Nat)
    (hids : CDragon.champion_ids net = Except.ok ids)
    (hfail : ∃ id ∈ ids, ∃ e, net.championResult id = Except.error e) :
    (∃ f, CDragon.all_champions net = Except.error f) ∧
    ∀ m, CDragon.all_champions net ≠ Except.ok m := by
  have herr : ∃ f, CDragon.all_champions net = Except.error f := by
    unfold CDragon.all_champions
    rw [hids]
    exact joinChampionTasks_error_of_mem net ids [] hfail
  obtain ⟨f, hf⟩ := herr
  exact ⟨⟨f, hf⟩, fun m hm => by rw [hf] at hm; cases hm⟩

/-- Witness for C3: with id 2's fetch failing, `all_champions` fails even
though id 1's fetch succeeds. -/
theorem all_champions_fails_whole_witness :
    (∃ f, CDragon.all_champions netChamp2FailW = Except.error f) ∧
    ∀ m, CDragon.all_champions netChamp2FailW ≠ Except.ok m :=
  all_champions_fails_whole netChamp2FailW [1, 2] rfl
    ⟨2, by decide, ["404 not found"], rfl⟩

/-- Keys of a key-replacing insert at a fresh key: the key is added. -/
theorem mapKeys_insert_not_mem (m : CDragon.ChampMap) (k : Nat)
    (v : Champion) (h : k ∉ CDragon.mapKeys m) :
    CDragon.mapKeys (CDragon.mapInsert m k v) = k :: CDragon.mapKeys m := by
  unfold CDragon.mapInsert
  have hany : m.any (fun p => p.1 == k) = false := by
    rw [List.any_eq_false]
    intro p hp
    simp only [beq_iff_eq]
    intro hk
    exact h (hk ▸ List.mem_map_of_mem Prod.fst hp)
  rw [hany]
  simp [CDragon.mapKeys]

/-- The join loop on distinct ids whose fetches all succeed with matching
`id` fields: it succeeds and its key list is, up to order, the listed ids
together with the keys already accumulated. -/
theorem joinChampionTasks_success_keys (net : NetEnv) :
    ∀ (ids : List Nat) (acc : CDragon.ChampMap),
      (CDragon.mapKeys acc ++ ids).Nodup →
      (∀ id ∈ ids, ∃ c, net.championResult id = Except.ok c ∧ c.id = id) →
      ∃ m, CDragon.joinChampionTasks net ids acc = Except.ok m ∧
        (CDragon.mapKeys m).Perm (CDragon.mapKeys acc ++ ids) := by
  intro ids
  induction ids with
  | nil =>
    intro acc _ _
    exact ⟨acc, rfl, by simp⟩
  | cons id0 rest ih =>
    intro acc hnd hok
    obtain ⟨c, hc, hcid⟩ := hok id0 (List.mem_cons_self id0 rest)
    have hid0 : id0 ∉ CDragon.mapKeys acc := by
      intro hmem
      have hdisj := (List.nodup_append.mp hnd).2.2
      exact hdisj hmem (List.mem_cons_self id0 rest)
    have hkeys : CDragon.mapKeys (CDragon.mapInsert acc c.id c) =
        id0 :: CDragon.mapKeys acc := by
      rw [hcid]
      exact mapKeys_insert_not_mem acc id0 c hid0
    have hnd' : (CDragon.mapKeys (CDragon.mapInsert acc c.id c) ++
        rest).Nodup := by
      rw [hkeys]
      exact (List.perm_middle.symm.nodup_iff.mpr hnd)
    obtain ⟨m, hm, hp⟩ := ih (CDragon.mapInsert acc c.id c) hnd'
      (fun id hid => hok id (List.mem_cons_of_mem id0 hid))
    refine ⟨m, ?_, ?_⟩
    · simp [CDragon.joinChampionTasks, hc, hm]
    · refine hp.trans ?_
      rw [hkeys, List.cons_append]
      exact List.perm_middle.symm

/-- C4.  On a distinct id list whose fetches all succeed (each with the
requested id as its `id` field, which is what the entity endpoint serves),
`CDragon::all_champions` succeeds with a map whose keys are, as a set,
exactly the input ids: no key is missing, duplicated, or extraneous,
independently of the completion order the sequential join observes. -/
theorem all_champions_success_keys (net : NetEnv) (ids : List Nat)
    (hids : CDragon.champion_ids net = Except.ok ids)
    (hnd : ids.Nodup)
    (hok : ∀ id ∈ ids, ∃ c, net.championResult id = Except.ok c ∧
      c.id = id) :
    ∃ m, CDragon.all_champions net = Except.ok m ∧
      (CDragon.mapKeys m).Perm ids ∧
      (CDragon.mapKeys m).Nodup ∧
      (CDragon.mapKeys m).length = ids.length ∧
      ∀ k, k ∈ CDragon.mapKeys m ↔ k ∈ ids := by
  obtain ⟨m, hm, hp⟩ := joinChampionTasks_success_keys net ids []
    (by simpa [CDragon.mapKeys] using hnd) hok
  have hperm : (CDragon.mapKeys m).Perm ids := by
    simpa [CDragon.mapKeys] using hp
  refine ⟨m, ?_, hperm, hperm.nodup_iff.mpr hnd, hperm.length_eq,
    fun k => hperm.mem_iff⟩
  unfold CDragon.all_champions
  rw [hids]
  exact hm

/-- Witness for C4: ids `[1, 2]` with both fetches succeeding yield a map
with key set `{1, 2}`. -/
theorem all_champions_success_keys_witness :
    ∃ m, CDragon.all_champions netOkW = Except.ok m ∧
      (CDragon.mapKeys m).Perm [1, 2] ∧
      (CDragon.mapKeys m).Nodup ∧
      (CDragon.mapKeys m).length = [1, 2].length ∧
      ∀ k, k ∈ CDragon.mapKeys m ↔ k ∈ [1, 2] :=
  all_champions_success_keys netOkW [1, 2] rfl (by decide)
    (by
      intro id hid
      rcases List.mem_cons.mp hid with rfl | hid
      · exact ⟨champ1W, rfl, rfl⟩
      · rcases List.mem_cons.mp hid with rfl | hid
        · exact ⟨champ2W, rfl, rfl⟩
        · exact absurd hid (List.not_mem_nil id))

/-- Counterexample to C1 as stated.  When the plugin stage of
`CDragon::update` succeeds but the champion stage then fails, the call
fails — yet the in-memory plugin list and the cached `plugins.json` have
already been replaced with the freshly fetched data, so they are not
unchanged from their values before the call. -/
theorem update_champion_failure_commits_plugin_stage :
    (CDragon.update netSummaryFailW ioOkW stInitW fsInitW).1 =
      Except.error
        (Failure.err ["failed to update champions", "connection reset"]) ∧
    (CDragon.update netSummaryFailW ioOkW stInitW fsInitW).2.1.plugins ≠
      stInitW.plugins ∧
    (CDragon.update netSummaryFailW ioOkW stInitW fsInitW).2.2.pluginsFile ≠
      fsInitW.pluginsFile := by
  refine ⟨rfl, ?_, ?_⟩ <;> decide

/-- C1 (amended).  Any failed stage aborts `CDragon::update` with the error
wrapped in a context frame naming that stage; the status, the in-memory
champion map and the cached `champion_details.json` are always unchanged,
and a failure in the plugin stage leaves everything unchanged — but a
failure in the champion stage leaves the already-committed plugin list and
`plugins.json` replaced with the freshly fetched plugins.  Each cache file
is written only after its fetch stage fully succeeded. -/
theorem update_failure_aborts (net : NetEnv) (io : IoEnv) (st : CState)
    (fs : CacheFS) :
    (∀ e, net.pluginsResult = Except.error e →
      CDragon.update net io st fs =
        (Except.error (Failure.err ("failed to update plugins" :: e)),
          st, fs)) ∧
    (∀ plugs e, net.pluginsResult = Except.ok plugs →
      io.writePluginsError = some e →
      CDragon.update net io st fs =
        (Except.error
            (Failure.err ("failed to cache the updated plugins" :: e)),
          st, fs)) ∧
    (∀ plugs f, net.pluginsResult = Except.ok plugs →
      io.writePluginsError = Option.none →
      CDragon.all_champions net = Except.error f →
      CDragon.update net io st fs =
        (Except.error (f.withContext "failed to update champions"),
          { st with plugins := plugs },
          { fs with dirExists := true, pluginsFile := some plugs })) ∧
    (∀ plugs champs e, net.pluginsResult = Except.ok plugs →
      io.writePluginsError = Option.none →
      CDragon.all_champions net = Except.ok champs →
      io.writeChampionsError = some e →
      CDragon.update net io st fs =
        (Except.error
            (Failure.err ("failed to cache the updated champions" :: e)),
          { st with plugins := plugs },
          { fs with dirExists := true, pluginsFile := some plugs })) := by
  refine ⟨?_, ?_, ?_, ?_⟩
  · intro e he
    unfold CDragon.update CDragon.plugins
    rw [he]
  · intro plugs e hp hio
    unfold CDragon.update CDragon.plugins CDragon.savePlugins
    rw [hp, hio]
  · intro plugs f hp hio hac
    unfold CDragon.update CDragon.plugins CDragon.savePlugins
    rw [hp, hio]
    simp only
    rw [hac]
  · intro plugs champs e hp hio hac hio2
    unfold CDragon.update CDragon.plugins CDragon.savePlugins
      CDragon.saveChampions
    rw [hp, hio]
    simp only
    rw [hac, hio2]

/-- Witness for C1 (amended): the champion-stage failure case evaluated on
the concrete fixture. -/
theorem update_failure_aborts_witness :
    CDragon.update netSummaryFailW ioOkW stInitW fsInitW =
      (Except.error
          (Failure.err ["failed to update champions", "connection reset"]),
        (⟨Status.uninitialized, [plugRemoteW], []⟩ : CState),
        (⟨true, some [plugRemoteW], Option.none⟩ : CacheFS)) :=
  (update_failure_aborts netSummaryFailW ioOkW stInitW fsInitW).2.2.1
    [plugRemoteW] (Failure.err ["connection reset"]) rfl rfl rfl

/-- C8.  When `CDragon::update` succeeds, it has replaced both cache files
with the freshly fetched data (creating the cache directory when absent),
committed the same data in memory, and set the status to `UpToDate`. -/
theorem update_success_state (net : NetEnv) (io : IoEnv) (st : CState)
    (fs : CacheFS) (st' : CState) (fs' : CacheFS)
    (h : CDragon.update net io st fs = (Except.ok (), st', fs')) :
    ∃ plugs champs,
      CDragon.plugins net = Except.ok plugs ∧
      CDragon.all_champions net = Except.ok champs ∧
      st' = ⟨Status.upToDate, plugs, champs⟩ ∧
      fs' = ⟨true, some plugs, some champs⟩ := by
  unfold CDragon.update at h
  split at h
  · simp at h
  · rename_i plugs hp
    split at h
    · simp at h
    · rename_i fs1 hs
      dsimp only at h
      split at h
      · simp at h
      · rename_i champs hac
        split at h
        · simp at h
        · rename_i fs2 hsc
          have hfs1 : fs1 =
              { fs with dirExists := true, pluginsFile := some plugs } := by
            unfold CDragon.savePlugins at hs
            cases hio : io.writePluginsError with
            | none => rw [hio] at hs; exact (Except.ok.inj hs).symm
            | some e => rw [hio] at hs; cases hs
          have hfs2 : fs2 = { fs1 with dirExists := true, championsFile := some champs } := by
            unfold CDragon.saveChampions at hsc
            cases hio : io.writeChampionsError with
            | none => rw [hio] at hsc; exact (Except.ok.inj hsc).symm
            | some e => rw [hio] at hsc; cases hsc
          injection h with h1 h23
          injection h23 with h2 h3
          refine ⟨plugs, champs, hp, hac, h2.symm, ?_⟩
          rw [← h3, hfs2, hfs1]

/-- Witness for C8: the fully successful fixture environment run on a fresh
cache directory. -/
theorem update_success_state_witness :
    ∃ plugs champs,
      CDragon.plugins netOkW = Except.ok plugs ∧
      CDragon.all_champions netOkW = Except.ok champs ∧
      (CDragon.update netOkW ioOkW stInitW fsInitW).2.1 =
        ⟨Status.upToDate, plugs, champs⟩ ∧
      (CDragon.update netOkW ioOkW stInitW fsInitW).2.2 =
        ⟨true, some plugs, some champs⟩ :=
  update_success_state netOkW ioOkW stInitW fsInitW
    (CDragon.update netOkW ioOkW stInitW fsInitW).2.1
    (CDragon.update netOkW ioOkW stInitW fsInitW).2.2 rfl

/-! ### Lemmas on the `mtime` text format -/

/-- Digit characters are digits. -/
theorem digitChar_isDigit : ∀ n < 10, (digitChar n).isDigit = true := by
  decide

/-- Digit characters are not whitespace. -/
theorem digitChar_not_ws : ∀ n < 10, (digitChar n).isWhitespace = false := by
  decide

/-- `digitVal` inverts `digitChar` on digit values. -/
theorem digitVal_digitChar : ∀ n < 10, digitVal (digitChar n) = n := by
  decide

/-- A two-digit run is taken whole by a width-2 numeric directive, whatever
follows. -/
theorem takeDigits_pad2 (v : Nat) (hv : v < 100) (r : List Char) :
    takeDigits 2 (pad2 v ++ r) = (pad2 v, r) := by
  have h1 : v / 10 < 10 := by omega
  have h2 : v % 10 < 10 := by omega
  simp [pad2, takeDigits, digitChar_isDigit _ h1, digitChar_isDigit _ h2]

/-- A width-2 numeric directive reads back a two-digit zero-padded value. -/
theorem parseNatUpTo_pad2 (v : Nat) (hv : v < 100) (r : List Char) :
    parseNatUpTo 2 (pad2 v ++ r) = some (v, r) := by
  have h1 : v / 10 < 10 := by omega
  have h2 : v % 10 < 10 := by omega
  unfold parseNatUpTo
  rw [takeDigits_pad2 v hv r]
  simp [pad2, natOfDigits, digitVal_digitChar _ h1, digitVal_digitChar _ h2]
  omega

/-- A four-digit run is taken whole by a width-4 numeric directive, whatever
follows. -/
theorem takeDigits_pad4 (v : Nat) (hv : v < 10000) (r : List Char) :
    takeDigits 4 (pad4 v ++ r) = (pad4 v, r) := by
  have h1 : v / 1000 < 10 := by omega
  have h2 : v / 100 % 10 < 10 := by omega
  have h3 : v / 10 % 10 < 10 := by omega
  have h4 : v % 10 < 10 := by omega
  simp [pad4, takeDigits, digitChar_isDigit _ h1, digitChar_isDigit _ h2,
    digitChar_isDigit _ h3, digitChar_isDigit _ h4]

/-- A width-4 numeric directive reads back a four-digit zero-padded value.
-/
theorem parseNatUpTo_pad4 (v : Nat) (hv : v < 10000) (r : List Char) :
    parseNatUpTo 4 (pad4 v ++ r) = some (v, r) := by
  have h1 : v / 1000 < 10 := by omega
  have h2 : v / 100 % 10 < 10 := by omega
  have h3 : v / 10 % 10 < 10 := by omega
  have h4 : v % 10 < 10 := by omega
  unfold parseNatUpTo
  rw [takeDigits_pad4 v hv r]
  simp [pad4, natOfDigits, digitVal_digitChar _ h1, digitVal_digitChar _ h2,
    digitVal_digitChar _ h3, digitVal_digitChar _ h4]
  omega

/-- The `%a` directive reads back a formatted weekday name. -/
theorem parseName3_weekdayAbbrev (w : Nat) (hw : w < 7) (r : List Char) :
    parseName3 weekdayTable (weekdayAbbrev w ++ r) = some (w, r) := by
  interval_cases w <;> rfl

/-- The `%b` directive reads back a formatted month name. -/
theorem parseName3_monthAbbrev (m : Nat) (hm1 : 1 ≤ m) (hm2 : m ≤ 12)
    (r : List Char) :
    parseName3 monthTable (monthAbbrev m ++ r) = some (m, r) := by
  interval_cases m <;> rfl

/-- A literal directive reads back its own character. -/
theorem expectChar_self (c : Char) (r : List Char) :
    expectChar c (c :: r) = some r := by
  simp [expectChar]

/-- A space in the format string absorbs a space character. -/
theorem skipWS_space (r : List Char) : skipWS (' ' :: r) = skipWS r := rfl

/-- A whitespace skip stops at a non-whitespace head. -/
theorem skipWS_not_ws (c : Char) (r : List Char)
    (h : c.isWhitespace = false) : skipWS (c :: r) = c :: r := by
  simp [skipWS, List.dropWhile_cons, h]

/-- A whitespace skip stops at a two-digit run. -/
theorem skipWS_pad2 (v : Nat) (hv : v < 100) (r : List Char) :
    skipWS (pad2 v ++ r) = pad2 v ++ r := by
  have h1 : v / 10 < 10 := by omega
  simp [pad2, skipWS, List.dropWhile_cons, digitChar_not_ws _ h1]

/-- A whitespace skip stops at a four-digit run. -/
theorem skipWS_pad4 (v : Nat) (hv : v < 10000) (r : List Char) :
    skipWS (pad4 v ++ r) = pad4 v ++ r := by
  have h1 : v / 1000 < 10 := by omega
  simp [pad4, skipWS, List.dropWhile_cons, digitChar_not_ws _ h1]

/-- A whitespace skip stops at a month name. -/
theorem skipWS_monthAbbrev (m : Nat) (hm1 : 1 ≤ m) (hm2 : m ≤ 12)
    (r : List Char) :
    skipWS (monthAbbrev m ++ r) = monthAbbrev m ++ r := by
  interval_cases m <;> rfl

/-- Every month has at most 31 days. -/
theorem daysInMonth_le (y m : Nat) : daysInMonth y m ≤ 31 := by
  unfold daysInMonth
  split
  · split <;> omega
  · split <;> omega

/-- Valid calendar fields pass the parser's range check. -/
theorem isValidDate_of_valid (d : DateTime) (h : d.Valid) :
    isValidDate d.year d.month d.day = true := by
  obtain ⟨h1, h2, h3, h4, h5, h6, -, -, -⟩ := h
  simp [isValidDate, h1, h2, h3, h4, h5, h6]

/-- Parsing the field directives back from a serialized timestamp recovers
exactly the serialized fields (sub-second part dropped), leaving the
serialized `" UTC"` zone suffix unconsumed. -/
theorem parseMtimeFields_serialize (d : DateTime) (h : d.Valid) :
    parseMtimeFields (mtimeSerialize d) =
      some (⟨d.year, d.month, d.day, d.hour, d.minute, d.second, 0⟩,
        [' ', 'U', 'T', 'C']) := by
  obtain ⟨h1, h2, h3, h4, h5, h6, h7, h8, h9⟩ := h
  have hwd : weekdayOf d.year d.month d.day < 7 :=
    Nat.mod_lt _ (by norm_num)
  have hday : d.day < 100 :=
    lt_of_le_of_lt h6 (lt_of_le_of_lt (daysInMonth_le d.year d.month)
      (by norm_num))
  have hyear : d.year < 10000 := by omega
  have hhour : d.hour < 100 := by omega
  have hmin : d.minute < 100 := by omega
  have hsec : d.second < 100 := by omega
  simp only [mtimeSerialize, parseMtimeFields,
    parseName3_weekdayAbbrev _ hwd,
    expectChar_self, skipWS_space,
    skipWS_pad2 _ hday, parseNatUpTo_pad2 _ hday,
    skipWS_monthAbbrev _ h3 h4, parseName3_monthAbbrev _ h3 h4,
    skipWS_pad4 _ hyear, parseNatUpTo_pad4 _ hyear,
    skipWS_pad2 _ hhour, parseNatUpTo_pad2 _ hhour,
    parseNatUpTo_pad2 _ hmin, parseNatUpTo_pad2 _ hsec]
  have hvd : isValidDate d.year d.month d.day = true :=
    isValidDate_of_valid d ⟨h1, h2, h3, h4, h5, h6, h7, h8, h9⟩
  simp [hvd, h7, h8, h9]

/-- Deserializing a serialized timestamp recovers the fields at second
precision (the format carries no sub-second part). -/
theorem parseMtime_serialize (d : DateTime) (h : d.Valid) :
    parseMtime (mtimeSerialize d) = some { d with nano := 0 } := by
  unfold parseMtime
  rw [parseMtimeFields_serialize d h]
  rfl

/-- The serde tag of a `PluginName` decodes back to the same name. -/
theorem pluginName_deser_ser (n : PluginName) :
    PluginName.deserName n.serName = n := by
  cases n <;> rfl

/-- The serde tag of a `PluginType` decodes back to the same type. -/
theorem pluginType_deser_ser (t : PluginType) :
    PluginType.deserName t.serName = some t := by
  cases t <;> rfl

/-- C9.  Serializing a `Plugin` to JSON and deserializing the result yields
a `Plugin` with the same name, the same kind, the same `mtime` up to the
second-level precision of the textual timestamp format (the sub-second part
is dropped, every other field is preserved exactly), and the same size. -/
theorem plugin_json_roundtrip (p : Plugin) (h : p.mtime.Valid) :
    Plugin.fromJson (Plugin.toJson p) =
      some ⟨p.name, p.ty, { p.mtime with nano := 0 }, p.size⟩ := by
  have hm : mtimeDeserializeStr (mtimeSerializeStr p.mtime) =
      some { p.mtime with nano := 0 } := by
    unfold mtimeDeserializeStr mtimeSerializeStr
    exact parseMtime_serialize p.mtime h
  cases hs : p.size with
  | none =>
    simp [Plugin.toJson, Plugin.fromJson, Json.get.lookupField, hs, hm,
      pluginName_deser_ser, pluginType_deser_ser]
  | some n =>
    simp [Plugin.toJson, Plugin.fromJson, Json.get.lookupField, hs, hm,
      pluginName_deser_ser, pluginType_deser_ser]

/-- Witness for C9: the concrete fixture plugin round-trips (its `mtime`
has no sub-second part, so it is preserved exactly). -/
theorem plugin_json_roundtrip_witness :
    Plugin.fromJson (Plugin.toJson plugRemoteW) = some plugRemoteW :=
  plugin_json_roundtrip plugRemoteW (by decide)

/-! ### Extension lemmas: the field parsers are insensitive to what follows
the text they consume -/

/-- A name directive fails on empty input. -/
theorem parseName3_nil (tbl : List (List Char × Nat)) :
    parseName3 tbl [] = Option.none := rfl

/-- A literal directive fails on empty input. -/
theorem expectChar_nil (ch : Char) : expectChar ch [] = Option.none := rfl

/-- A numeric directive fails on empty input. -/
theorem parseNatUpTo_nil (k : Nat) : parseNatUpTo k [] = Option.none := by
  cases k <;> rfl

/-- A name directive consumes exactly three characters: appending input
after them changes nothing. -/
theorem parseName3_append (tbl : List (List Char × Nat)) (cs t : List Char)
    (v : Nat) (rest : List Char) (h : parseName3 tbl cs = some (v, rest)) :
    parseName3 tbl (cs ++ t) = some (v, rest ++ t) := by
  match cs with
  | [] => exact absurd h (by simp [parseName3])
  | [a] => exact absurd h (by simp [parseName3])
  | [a, b] => exact absurd h (by simp [parseName3])
  | a :: b :: c :: rest' =>
    simp only [parseName3, List.cons_append] at h ⊢
    cases hl : nameLookup tbl [a.toLower, b.toLower, c.toLower] with
    | none => rw [hl] at h; simp at h
    | some v' =>
      rw [hl] at h
      simp at h
      obtain ⟨rfl, rfl⟩ := h
      rfl

/-- A literal directive consumes exactly one character: appending input
after it changes nothing. -/
theorem expectChar_append (ch : Char) (cs t rest : List Char)
    (h : expectChar ch cs = some rest) :
    expectChar ch (cs ++ t) = some (rest ++ t) := by
  match cs with
  | [] => exact absurd h (by simp [expectChar])
  | x :: cs' =>
    simp only [expectChar, List.cons_append] at h ⊢
    split at h
    · rename_i hx
      obtain rfl := Option.some.inj h
      rw [if_pos hx]
    · simp at h

/-- When a whitespace skip stops inside its input, appended input is left
alone. -/
theorem skipWS_append_of_ne_nil (cs t : List Char) (h : skipWS cs ≠ []) :
    skipWS (cs ++ t) = skipWS cs ++ t := by
  unfold skipWS at h ⊢
  rw [List.dropWhile_append]
  cases hcs : List.dropWhile Char.isWhitespace cs with
  | nil => exact absurd hcs h
  | cons y r => simp [hcs]

/-- When a digit take stops inside its input, appended input is left alone.
-/
theorem takeDigits_append_cons (t : List Char) :
    ∀ (n : Nat) (cs ds r : List Char) (c : Char),
      takeDigits n cs = (ds, c :: r) →
      takeDigits n (cs ++ t) = (ds, c :: (r ++ t)) := by
  intro n cs
  induction cs generalizing n with
  | nil =>
    intro ds r c h
    cases n with
    | zero => simp [takeDigits] at h
    | succ n => simp [takeDigits] at h
  | cons x cs' ih =>
    intro ds r c h
    cases n with
    | zero =>
      simp only [takeDigits, Prod.mk.injEq] at h
      obtain ⟨h1, h2⟩ := h
      subst h1
      injection h2 with hc hr
      subst hc
      subst hr
      simp [takeDigits]
    | succ n =>
      by_cases hd : x.isDigit
      · rcases htd : takeDigits n cs' with ⟨ds0, rest0⟩
        have hx : takeDigits (n + 1) (x :: cs') = (x :: ds0, rest0) := by
          simp [takeDigits, hd, htd]
        rw [hx] at h
        simp only [Prod.mk.injEq] at h
        obtain ⟨h1, h2⟩ := h
        subst h1
        subst h2
        have hih := ih n ds0 r c htd
        simp [takeDigits, hd, hih]
      · have hx : takeDigits (n + 1) (x :: cs') = ([], x :: cs') := by
          simp [takeDigits, hd]
        rw [hx] at h
        simp only [Prod.mk.injEq] at h
        obtain ⟨h1, h2⟩ := h
        subst h1
        injection h2 with hc hr
        subst hc
        subst hr
        simp [takeDigits, hd]

/-- When a digit take consumes its whole input, appending input whose first
character is not a digit adds exactly that input to the rest. -/
theorem takeDigits_append_nil (t : List Char)
    (ht : ∀ c ∈ t.head?, c.isDigit = false) :
    ∀ (n : Nat) (cs ds : List Char),
      takeDigits n cs = (ds, []) →
      takeDigits n (cs ++ t) = (ds, t) := by
  intro n cs
  induction cs generalizing n with
  | nil =>
    intro ds h
    have hnil : ∀ k, takeDigits k ([] : List Char) = ([], []) := by
      intro k; cases k <;> rfl
    rw [hnil n] at h
    injection h with h1 h2
    subst h1
    cases t with
    | nil => simpa using hnil n
    | cons c t' =>
      have hc : c.isDigit = false := ht c rfl
      cases n with
      | zero => rfl
      | succ n => simp [takeDigits, hc]
  | cons x cs' ih =>
    intro ds h
    cases n with
    | zero =>
      simp only [takeDigits, Prod.mk.injEq] at h
      exact absurd h.2 (by simp)
    | succ n =>
      by_cases hd : x.isDigit
      · rcases htd : takeDigits n cs' with ⟨ds0, rest0⟩
        have hx : takeDigits (n + 1) (x :: cs') = (x :: ds0, rest0) := by
          simp [takeDigits, hd, htd]
        rw [hx] at h
        simp only [Prod.mk.injEq] at h
        obtain ⟨h1, h2⟩ := h
        subst h1
        subst h2
        have hih := ih n ds0 htd
        simp [takeDigits, hd, hih]
      · have hx : takeDigits (n + 1) (x :: cs') = ([], x :: cs') := by
          simp [takeDigits, hd]
        rw [hx] at h
        simp at h

/-- When a numeric directive stops inside its input, appended input is left
alone. -/
theorem parseNatUpTo_append_cons (k : Nat) (cs t r : List Char) (c : Char)
    (v : Nat) (h : parseNatUpTo k cs = some (v, c :: r)) :
    parseNatUpTo k (cs ++ t) = some (v, c :: (r ++ t)) := by
  unfold parseNatUpTo at h ⊢
  rcases htd : takeDigits k cs with ⟨ds, rest⟩
  rw [htd] at h
  cases ds with
  | nil => simp at h
  | cons d0 ds' =>
    simp only [Option.some.injEq, Prod.mk.injEq] at h
    obtain ⟨rfl, rfl⟩ := h
    rw [takeDigits_append_cons t k cs (d0 :: ds') r c htd]

/-- When a numeric directive consumes its whole input, appending input whose
first character is not a digit leaves the read value unchanged. -/
theorem parseNatUpTo_append_nil (k : Nat) (cs t : List Char) (v : Nat)
    (ht : ∀ c ∈ t.head?, c.isDigit = false)
    (h : parseNatUpTo k cs = some (v, [])) :
    parseNatUpTo k (cs ++ t) = some (v, t) := by
  unfold parseNatUpTo at h ⊢
  rcases htd : takeDigits k cs with ⟨ds, rest⟩
  rw [htd] at h
  cases ds with
  | nil => simp at h
  | cons d0 ds' =>
    simp only [Option.some.injEq, Prod.mk.injEq] at h
    obtain ⟨rfl, rfl⟩ := h
    rw [takeDigits_append_nil t ht k cs (d0 :: ds') htd]

/-- Extension of a complete field parse: when the field directives consume
the whole input `cs`, appending input whose first character is not a digit
parses to the same fields with the appended input untouched. -/
theorem parseMtimeFields_append (cs t : List Char) (d : DateTime)
    (h : parseMtimeFields cs = some (d, []))
    (ht : ∀ c ∈ t.head?, c.isDigit = false) :
    parseMtimeFields (cs ++ t) = some (d, t) := by
  unfold parseMtimeFields at h
  split at h
  · simp at h
  rename_i wd cs1 h1
  split at h
  · simp at h
  rename_i cs2 h2
  split at h
  · simp at h
  rename_i day cs3 h3
  split at h
  · simp at h
  rename_i mon cs4 h4
  split at h
  · simp at h
  rename_i year cs5 h5
  split at h
  · simp at h
  rename_i hour cs6 h6
  split at h
  · simp at h
  rename_i cs7 h7
  split at h
  · simp at h
  rename_i minute cs8 h8
  split at h
  · simp at h
  rename_i cs9 h9
  split at h
  · simp at h
  rename_i second cs10 h10
  split at h
  · rename_i hcond
    simp only [Option.some.injEq, Prod.mk.injEq] at h
    obtain ⟨hd, hcs10⟩ := h
    subst hcs10
    subst hd
    have hne_s2 : skipWS cs2 ≠ [] := by
      intro hnil; rw [hnil, parseNatUpTo_nil] at h3
      exact Option.noConfusion h3
    have hcs3 : cs3 ≠ [] := by
      intro hnil
      rw [hnil, show skipWS [] = [] from rfl, parseName3_nil] at h4
      exact Option.noConfusion h4
    have hne_s3 : skipWS cs3 ≠ [] := by
      intro hnil; rw [hnil, parseName3_nil] at h4
      exact Option.noConfusion h4
    have hne_s4 : skipWS cs4 ≠ [] := by
      intro hnil; rw [hnil, parseNatUpTo_nil] at h5
      exact Option.noConfusion h5
    have hcs5 : cs5 ≠ [] := by
      intro hnil
      rw [hnil, show skipWS [] = [] from rfl, parseNatUpTo_nil] at h6
      exact Option.noConfusion h6
    have hne_s5 : skipWS cs5 ≠ [] := by
      intro hnil; rw [hnil, parseNatUpTo_nil] at h6
      exact Option.noConfusion h6
    have hcs6 : cs6 ≠ [] := by
      intro hnil; rw [hnil, expectChar_nil] at h7
      exact Option.noConfusion h7
    have hcs8 : cs8 ≠ [] := by
      intro hnil; rw [hnil, expectChar_nil] at h9
      exact Option.noConfusion h9
    obtain ⟨c3, r3, rfl⟩ := List.exists_cons_of_ne_nil hcs3
    obtain ⟨c5, r5, rfl⟩ := List.exists_cons_of_ne_nil hcs5
    obtain ⟨c6, r6, rfl⟩ := List.exists_cons_of_ne_nil hcs6
    obtain ⟨c8, r8, rfl⟩ := List.exists_cons_of_ne_nil hcs8
    have a1 := parseName3_append weekdayTable cs t wd cs1 h1
    have a2 := expectChar_append ',' cs1 t cs2 h2
    have e2 := skipWS_append_of_ne_nil cs2 t hne_s2
    have a3 := parseNatUpTo_append_cons 2 (skipWS cs2) t r3 c3 day h3
    have e3 := skipWS_append_of_ne_nil (c3 :: r3) t hne_s3
    have a4 := parseName3_append monthTable (skipWS (c3 :: r3)) t mon cs4 h4
    have e4 := skipWS_append_of_ne_nil cs4 t hne_s4
    have a5 := parseNatUpTo_append_cons 4 (skipWS cs4) t r5 c5 year h5
    have e5 := skipWS_append_of_ne_nil (c5 :: r5) t hne_s5
    have a6 := parseNatUpTo_append_cons 2 (skipWS (c5 :: r5)) t r6 c6 hour h6
    have a7 := expectChar_append ':' (c6 :: r6) t cs7 h7
    have a8 := parseNatUpTo_append_cons 2 cs7 t r8 c8 minute h8
    have a9 := expectChar_append ':' (c8 :: r8) t cs9 h9
    have a10 := parseNatUpTo_append_nil 2 cs9 t second ht h10
    simp only [List.cons_append] at e3 e5 a7 a9
    simp only [parseMtimeFields, a1, a2, e2, a3, e3, a4, e4, a5, e5, a6,
      a7, a8, a9, a10]
    rw [if_pos hcond]
  · simp at h

/-- C10.  `mtime_format::deserialize` discards the zone designator: a
complete field part followed by whitespace and any two non-whitespace zone
tokens decodes both times to the same instant, namely the parsed wall-clock
fields interpreted as UTC. -/
theorem mtime_deserialize_ignores_zone (b z1 z2 : List Char) (d : DateTime)
    (hb : parseMtimeFields b = some (d, []))
    (h1 : ∀ c ∈ z1, c.isWhitespace = false)
    (h2 : ∀ c ∈ z2, c.isWhitespace = false) :
    parseMtime (b ++ ' ' :: z1) = some d ∧
    parseMtime (b ++ ' ' :: z2) = some d := by
  have main : ∀ z : List Char, (∀ c ∈ z, c.isWhitespace = false) →
      parseMtime (b ++ ' ' :: z) = some d := by
    intro z hz
    have hsp : ∀ c ∈ (' ' :: z).head?, c.isDigit = false := by
      intro c hc
      simp at hc
      subst hc
      decide
    have hfields : parseMtimeFields (b ++ ' ' :: z) = some (d, ' ' :: z) :=
      parseMtimeFields_append b (' ' :: z) d hb hsp
    unfold parseMtime
    rw [hfields]
    have hskip : skipWS (' ' :: z) = skipWS z := skipWS_space z
    have hz' : skipWS z = z := by
      cases z with
      | nil => rfl
      | cons c r => exact skipWS_not_ws c r (hz c (List.mem_cons_self c r))
    have hdrop : z.dropWhile (fun c => !c.isWhitespace) = [] := by
      rw [List.dropWhile_eq_nil_iff]
      intro x hx
      simp [hz x hx]
    simp [hskip, hz', hdrop]
  exact ⟨main z1 h1, main z2 h2⟩

/-- Witness for C10: `"Sun, 01 Jun 2025 10:20:30"` with zone `UTC` and with
zone `PST` decode to the same instant. -/
theorem mtime_deserialize_ignores_zone_witness :
    parseMtime (("Sun, 01 Jun 2025 10:20:30").data ++
        ' ' :: ("UTC").data) = some ⟨2025, 6, 1, 10, 20, 30, 0⟩ ∧
    parseMtime (("Sun, 01 Jun 2025 10:20:30").data ++
        ' ' :: ("PST").data) = some ⟨2025, 6, 1, 10, 20, 30, 0⟩ :=
  mtime_deserialize_ignores_zone ("Sun, 01 Jun 2025 10:20:30").data
    ("UTC").data ("PST").data ⟨2025, 6, 1, 10, 20, 30, 0⟩
    (by decide) (by decide) (by decide)

end Blitzadex
